import Mathlib

/-!
# Verification of the daggle scoring subsystem

Shallow embedding of the scoring/validation/leaderboard code of the daggle
backend (`src/backend/src/domain/scoring/*.py`,
`src/backend/src/domain/services/submission.py`,
`src/backend/src/infrastructure/tasks/scoring.py`) together with proofs of
the behavioural claims about it.

Modelling conventions:
* Python floats are modelled as rationals (`ℚ`); `round(x, n)` is modelled by
  `pyRound`, Python's round-half-to-even on the idealized rational value.
* CSV input is modelled after `csv.DictReader`'s output: a header list plus
  one association list (column name → cell string) per data row.
* Fallible calls (`storage.load`, `Scorer.score`, raised exceptions) are
  modelled with `Except String`; callers that catch exceptions pattern-match
  on the `Except` value.
-/

namespace Daggle

/-! ## Python round

`round(x, ndigits)` with round-half-to-even tie-breaking, on the exact
rational value. -/

/-- Rounding of a rational to the nearest integer, ties going to the even
integer (the integer core of Python's `round`). -/
def pyRoundInt (x : ℚ) : ℤ :=
  if x - (⌊x⌋ : ℚ) < 1/2 then ⌊x⌋
  else if 1/2 < x - (⌊x⌋ : ℚ) then ⌊x⌋ + 1
  else if ⌊x⌋ % 2 = 0 then ⌊x⌋ else ⌊x⌋ + 1

/-- Python's `round(x, ndigits)`: nearest multiple of `10^(-ndigits)`,
ties going to the even multiple. -/
def pyRound (q : ℚ) (ndigits : Nat) : ℚ :=
  (pyRoundInt (q * 10 ^ ndigits) : ℚ) / 10 ^ ndigits

/-! ## Metrics (`src/backend/src/domain/scoring/metrics.py`) -/

/-- Comparator used by `sorted(paired, key=lambda x: -x[0])`: pair `a` may
stay before `b` iff `a`'s prediction is at least `b`'s (descending order,
ties kept in input order — Python's sort is stable, as is
`List.mergeSort`). -/
def predDescLE (a b : ℚ × ℚ) : Bool := decide (b.1 ≤ a.1)

/-- The scan loop of `calculate_auc_roc`: walk the sorted pairs keeping a
running count `cum_pos` of actuals equal to 1; every other pair adds the
running count to the accumulator `auc`. -/
def aucScanGo (cum_pos : ℕ) (auc : ℚ) : List (ℚ × ℚ) → ℚ
  | [] => auc
  | (_, a) :: rest =>
      if a = 1 then aucScanGo (cum_pos + 1) auc rest
      else aucScanGo cum_pos (auc + (cum_pos : ℚ)) rest

/-- `calculate_auc_roc(predictions, actuals)` from `metrics.py`: length and
non-emptiness guards, stable descending sort of the zipped pairs, positive
count `n_pos = sum(actuals)`, class-presence guard, Mann-Whitney scan, and
final `round(auc, 6)`.  A raised `ValueError` is modelled as `.error` with
the exception text. -/
def calculate_auc_roc (predictions actuals : List ℚ) : Except String ℚ :=
  if predictions.length ≠ actuals.length then
    .error "Predictions and actuals must have the same length"
  else if predictions.length = 0 then
    .error "Cannot calculate AUC-ROC for empty arrays"
  else
    let paired := (predictions.zip actuals).mergeSort predDescLE
    let n_pos : ℚ := actuals.sum
    let n_neg : ℚ := (actuals.length : ℚ) - n_pos
    if n_pos = 0 ∨ n_neg = 0 then
      .error "AUC-ROC requires both positive and negative samples"
    else
      .ok (pyRound (aucScanGo 0 0 paired / (n_pos * n_neg)) 6)

/-- `metric_name.lower().replace("-", "_")`, the normalization used by
`get_metric_function` and `is_lower_better`. -/
def normalizeMetric (m : String) : String :=
  String.mk (m.toList.map (fun c => if c = '-' then '_' else c.toLower))

/-- `LOWER_IS_BETTER = {"rmse", "mae"}` membership test of
`is_lower_better`. -/
def is_lower_better (metric_name : String) : Bool :=
  normalizeMetric metric_name = "rmse" || normalizeMetric metric_name = "mae"

/-! ## CSV validation (`src/backend/src/domain/scoring/validation.py`)

The input of `validate_submission` is modelled after what `csv.DictReader`
produces from decoded text: the header list and, per data row, the
dictionary mapping column names to cell strings (an association list with
distinct keys).  The byte-decoding fallback and `csv.Error` branches act
before this representation exists and stay outside the model. -/

/-- A `csv.DictReader` row: column name → cell string. -/
abbrev Row := List (String × String)

/-- A parsed CSV file: `reader.fieldnames` plus the data rows. -/
structure Csv where
  headers : List String
  rows : List Row

/-- `row.get(col, "")`: the cell under `col`, `""` when absent. -/
def rowGet (row : Row) (col : String) : String :=
  (((row.find? (fun p => p.1 == col)).map Prod.snd).getD "")

/-- Python `str.strip()` on a character list: whitespace removed from both
ends. -/
def trimChars (cs : List Char) : List Char :=
  ((cs.dropWhile Char.isWhitespace).reverse.dropWhile Char.isWhitespace).reverse

/-- Python `str.strip()`. -/
def strTrim (s : String) : String := String.mk (trimChars s.toList)

/-- Split a character list at every occurrence of the character `c`
(`str.split(c)` with a one-character separator). -/
def splitOnChar (c : Char) : List Char → List (List Char)
  | [] => [[]]
  | x :: xs =>
      match splitOnChar c xs with
      | [] => [[]]
      | g :: gs => if x = c then [] :: g :: gs else (x :: g) :: gs

/-- Numeric value of a digit string (most significant digit first). -/
def digitsVal (cs : List Char) : ℚ :=
  ((cs.foldl (fun n c => n * 10 + (c.toNat - 48)) 0 : ℕ) : ℚ)

/-- Models Python `float(s)` restricted to plain decimal literals: optional
sign, then digits with an optional single decimal point (`"1"`, `"0.5"`,
`".5"`, `"1."`, `"-2.25"`).  Exponent notation and `inf`/`nan` forms are
outside the model. -/
def parseFloat (s : String) : Option ℚ :=
  let (sign, body) : ℚ × List Char :=
    match s.toList with
    | '-' :: r => (-1, r)
    | '+' :: r => (1, r)
    | r => (1, r)
  match splitOnChar '.' body with
  | [ip] =>
      if ip ≠ [] ∧ ip.all Char.isDigit then some (sign * digitsVal ip) else none
  | [ip, fp] =>
      if (ip ≠ [] ∨ fp ≠ []) ∧ ip.all Char.isDigit ∧ fp.all Char.isDigit then
        some (sign * (digitsVal ip + digitsVal fp / ((10 : ℚ) ^ fp.length)))
      else none
  | _ => none

/-- Python `int(x)`: truncation toward zero. -/
def truncQ (q : ℚ) : ℤ := if 0 ≤ q then ⌊q⌋ else -⌊-q⌋

/-- Parsing of one cell per `value_type`: `int`/`binary` use
`int(float(s))`, everything else `float(s)`. -/
def parsePred (value_type : String) (s : String) : Option ℚ :=
  (parseFloat s).map fun q =>
    if value_type = "int" ∨ value_type = "binary" then ((truncQ q : ℤ) : ℚ) else q

/-- One entry of `ValidationResult.errors`. -/
structure ValidationError where
  code : String
  message : String
  field : Option String := none
  row : Option ℕ := none
deriving DecidableEq, Repr

/-- `ValidationResult`; the `data` dict's two lists are `dataIds` (under the
id column key) and `dataVals` (under the prediction column key).  The early
returns of the source leave `data` as the empty dict, modelled by two empty
lists. -/
structure ValidationResult where
  valid : Bool
  errors : List ValidationError := []
  dataIds : List String := []
  dataVals : List ℚ := []
  row_count : ℕ := 0
deriving DecidableEq, Repr

/-- The loop state of the row scan in `validate_submission`: accumulated
errors, the `seen_ids` set (kept as a list, only membership is used), the
two `data` lists, and `row_count`. -/
structure ScanState where
  errors : List ValidationError := []
  seen : List String := []
  dataIds : List String := []
  dataVals : List ℚ := []
  rowCount : ℕ := 0
deriving DecidableEq, Repr

/-- The body of `for row_num, row in enumerate(reader, start=2)` in
`validate_submission`: empty-id skip, duplicate check (which does **not**
skip), empty-value skip, parse failure skip, range and binary checks, then
the two `data` appends. -/
def processRow (id_column prediction_column : String)
    (value_min value_max : Option ℚ) (value_type : String)
    (s : ScanState) (row_num : ℕ) (row : Row) : ScanState :=
  let s := { s with rowCount := s.rowCount + 1 }
  let row_id := strTrim (rowGet row id_column)
  if row_id = "" then
    { s with errors := s.errors ++
        [⟨"EMPTY_ID", "Empty ID value", some id_column, some row_num⟩] }
  else
    let s :=
      if s.seen.contains row_id then
        { s with errors := s.errors ++
            [⟨"DUPLICATE_ID", "Duplicate ID: " ++ row_id, some id_column, some row_num⟩] }
      else s
    let s := { s with seen := s.seen ++ [row_id] }
    let pred_str := strTrim (rowGet row prediction_column)
    if pred_str = "" then
      { s with errors := s.errors ++
          [⟨"EMPTY_VALUE", "Empty prediction value", some prediction_column, some row_num⟩] }
    else
      match parsePred value_type pred_str with
      | none =>
          { s with errors := s.errors ++
              [⟨"INVALID_VALUE", "Invalid " ++ value_type ++ " value: " ++ pred_str,
                some prediction_column, some row_num⟩] }
      | some pred_value =>
          let s : ScanState :=
            match value_min with
            | some lo =>
                if pred_value < lo then
                  { s with errors := s.errors ++
                      [⟨"VALUE_OUT_OF_RANGE",
                        "Value " ++ toString pred_value ++ " is below minimum " ++ toString lo,
                        some prediction_column, some row_num⟩] }
                else s
            | none => s
          let s : ScanState :=
            match value_max with
            | some hi =>
                if hi < pred_value then
                  { s with errors := s.errors ++
                      [⟨"VALUE_OUT_OF_RANGE",
                        "Value " ++ toString pred_value ++ " is above maximum " ++ toString hi,
                        some prediction_column, some row_num⟩] }
                else s
            | none => s
          let s : ScanState :=
            if value_type = "binary" ∧ pred_value ≠ 0 ∧ pred_value ≠ 1 then
              { s with errors := s.errors ++
                  [⟨"INVALID_BINARY",
                    "Binary prediction must be 0 or 1, got " ++ toString pred_value,
                    some prediction_column, some row_num⟩] }
            else s
          { s with dataIds := s.dataIds ++ [row_id], dataVals := s.dataVals ++ [pred_value] }

/-- The row scan: fold `processRow` over the rows, numbering them from 2. -/
def scanRows (id_column prediction_column : String)
    (value_min value_max : Option ℚ) (value_type : String)
    (s : ScanState) (row_num : ℕ) : List Row → ScanState
  | [] => s
  | row :: rest =>
      scanRows id_column prediction_column value_min value_max value_type
        (processRow id_column prediction_column value_min value_max value_type s row_num row)
        (row_num + 1) rest

/-- `MISSING_COLUMN` error for a column. -/
def missingColumnError (col : String) : ValidationError :=
  ⟨"MISSING_COLUMN", "Missing required column: " ++ col, some col, none⟩

/-- Summarized `MISSING_IDS`/`EXTRA_IDS` message: count plus up to five
sample ids and an elision marker.  The source samples in Python set
(hash) order; the model samples in first-seen order, which only affects
the message text, never whether the error is emitted. -/
def idSetMessage (verb : String) (ids : List String) : String :=
  verb ++ " " ++ toString ids.length ++ " " ++
    (if verb = "Missing" then "expected IDs: " else "unexpected IDs: ") ++
    toString (ids.take 5) ++ (if 5 < ids.length then "..." else "")

/-- The `expected_ids` comparison after the scan: `missing = expected −
seen` and `extra = seen − expected`, each summarized into one error when
non-empty. -/
def setIdErrors (id_column : String) (expected_ids : Option (List String))
    (seen : List String) : List ValidationError :=
  match expected_ids with
  | none => []
  | some expected =>
      let missing := expected.dedup.filter (fun i => ¬ seen.contains i)
      let extra := seen.dedup.filter (fun i => ¬ expected.contains i)
      (if missing.isEmpty then [] else
        [⟨"MISSING_IDS", idSetMessage "Missing" missing, some id_column, none⟩]) ++
      (if extra.isEmpty then [] else
        [⟨"EXTRA_IDS", idSetMessage "Found" extra, some id_column, none⟩])

/-- The `EMPTY_FILE` check after the scan. -/
def emptyFileErrors (row_count : ℕ) : List ValidationError :=
  if row_count = 0 then
    [⟨"EMPTY_FILE", "File contains no data rows", none, none⟩]
  else []

/-- `validate_submission` from `validation.py`, over an already-parsed CSV
table: header check with early return, row scan, expected-id set
comparison, empty-file check, and `valid = (len(errors) == 0)`. -/
def validate_submission (csv : Csv) (id_column : String := "id")
    (prediction_column : String := "prediction")
    (expected_ids : Option (List String) := none)
    (value_min : Option ℚ := none) (value_max : Option ℚ := none)
    (value_type : String := "float") : ValidationResult :=
  let columnErrors :=
    (if csv.headers.contains id_column then [] else [missingColumnError id_column]) ++
    (if csv.headers.contains prediction_column then [] else [missingColumnError prediction_column])
  if columnErrors.isEmpty then
    let final := scanRows id_column prediction_column value_min value_max value_type {} 2 csv.rows
    let errors := final.errors ++ setIdErrors id_column expected_ids final.seen
      ++ emptyFileErrors final.rowCount
    { valid := errors.isEmpty
      errors := errors
      dataIds := final.dataIds
      dataVals := final.dataVals
      row_count := final.rowCount }
  else
    { valid := false, errors := columnErrors }

/-! ## Scorer construction (`src/backend/src/domain/scoring/scorer.py`) -/

/-- `ScoringResult` from `scorer.py` (the `validation_result` field is not
read by any caller modelled here and is omitted). -/
structure ScoringResult where
  success : Bool
  score : Option ℚ := none
  error_message : Option String := none
deriving DecidableEq, Repr

/-- The constructor arguments of a `Scorer` as assembled by
`create_scorer_for_competition`. -/
structure ScorerCfg where
  solution_path : String
  metric : String
  value_min : Option ℚ := none
  value_max : Option ℚ := none
  value_type : String := "float"
deriving DecidableEq, Repr

/-- `Competition` model fields read by the scoring subsystem. -/
structure CompetitionRec where
  id : ℕ
  evaluation_metric : String
  solution_path : Option String := none
  title : String := ""
  slug : String := ""
deriving DecidableEq, Repr

/-- Python `a or b` on optional strings: `a` when truthy (present and
non-empty), else `b`. -/
def pyOrStr (a b : Option String) : Option String :=
  match a with
  | some s => if s = "" then b else some s
  | none => b

/-- Per-metric value constraints (`metric_configs` in
`create_scorer_for_competition`), with the `{"value_type": "float"}`
default for unknown metrics. -/
def metricConfig (metric : String) : Option ℚ × Option ℚ × String :=
  if metric = "auc_roc" ∨ metric = "roc_auc" then (some 0, some 1, "float")
  else if metric = "accuracy" then (none, none, "int")
  else if metric = "f1" then (none, none, "binary")
  else (none, none, "float")

/-- `create_scorer_for_competition(competition, solution_path=None)`:
`None` when neither the override nor the competition carries a truthy
solution path, otherwise a `Scorer` configured from the normalized metric
name. -/
def create_scorer_for_competition (competition : CompetitionRec)
    (solution_path : Option String := none) : Option ScorerCfg :=
  match pyOrStr solution_path competition.solution_path with
  | none => none
  | some path =>
      if path = "" then none
      else
        let metric := normalizeMetric competition.evaluation_metric
        let cfg := metricConfig metric
        some { solution_path := path, metric := metric,
               value_min := cfg.1, value_max := cfg.2.1, value_type := cfg.2.2 }

/-! ## Submission records and the synchronous pipeline
(`src/backend/src/domain/services/submission.py`) -/

/-- `SubmissionStatus` enum. -/
inductive SubmissionStatus where
  | pending
  | processing
  | scored
  | failed
deriving DecidableEq, Repr

/-- `status.value` strings. -/
def SubmissionStatus.value : SubmissionStatus → String
  | .pending => "pending"
  | .processing => "processing"
  | .scored => "scored"
  | .failed => "failed"

/-- The `Submission` model fields read or written by the scoring pipeline
and the leaderboard.  Timestamps are abstract integers. -/
structure SubmissionRec where
  id : ℕ
  competition_id : ℕ
  user_id : ℕ
  file_path : String := ""
  status : SubmissionStatus := .pending
  public_score : Option ℚ := none
  private_score : Option ℚ := none
  error_message : Option String := none
  scored_at : Option ℤ := none
  created_at : ℤ := 0
deriving DecidableEq, Repr

/-- `_mock_score`: mark SCORED with two independent draws
`round(random.uniform(0.5, 0.95), 4)`.  The two uniform draws are inputs
`randPub`/`randPriv`; nothing else of the submission (in particular not the
uploaded content) is consulted. -/
def mock_score (randPub randPriv : ℚ) (now : ℤ) (submission : SubmissionRec) :
    SubmissionRec :=
  { submission with
      status := .scored
      public_score := some (pyRound randPub 4)
      private_score := some (pyRound randPriv 4)
      scored_at := some now }

/-- `_score_submission` (synchronous path): create the scorer from the
competition; with no scorer fall back to `_mock_score`; otherwise run
`scorer.score(content)` — modelled by the oracle `runScorer`, whose
`.error` case stands for a raised exception — writing SCORED with
public = private = score on success, FAILED with the scorer's message on a
failure result, and FAILED with `"Scoring error: " + str(e)` when an
exception was raised.  The function is total: no exception propagates to
the caller. -/
def score_submission (competition : CompetitionRec)
    (runScorer : ScorerCfg → String → Except String ScoringResult)
    (randPub randPriv : ℚ) (now : ℤ)
    (content : String) (submission : SubmissionRec) : SubmissionRec :=
  match create_scorer_for_competition competition with
  | none => mock_score randPub randPriv now submission
  | some scorer =>
      match runScorer scorer content with
      | .ok result =>
          if result.success then
            { submission with
                status := .scored
                public_score := result.score
                private_score := result.score
                scored_at := some now }
          else
            { submission with
                status := .failed
                error_message := result.error_message }
      | .error e =>
          { submission with
              status := .failed
              error_message := some ("Scoring error: " ++ e) }

/-! ## Leaderboard (`get_leaderboard` in
`src/backend/src/domain/services/submission.py`)

The SQL query is modelled relationally over the list of persisted
submission rows: filter to this competition's SCORED rows, group by
`user_id`, aggregate best score / count / min and max `created_at`,
`ORDER BY (best score in metric direction, MIN(created_at) ASC)`, `LIMIT`.
SQL `MIN`/`MAX` skip NULLs, hence the `filterMap` over `public_score`; the
`getD 0` defaults are never reached for groups, which are non-empty by
construction.  `GROUP BY` enumeration order is backend-chosen; the model
groups in first-appearance order, which only picks one of the orders the
source may produce for rows tied on both sort keys. -/

/-- A row of the `users` table as read by the leaderboard. -/
structure UserRow where
  id : ℕ
  username : String := ""
  display_name : String := ""
deriving DecidableEq, Repr

/-- One row of the aggregate `SELECT ... GROUP BY user_id` query. -/
structure AggRow where
  user_id : ℕ
  best_score : Option ℚ
  submission_count : ℕ
  last_submission : ℤ
  first_submission : ℤ
deriving DecidableEq, Repr

/-- One leaderboard entry dict as built by `get_leaderboard`. -/
structure LeaderboardEntry where
  rank : ℕ
  user_id : ℕ
  username : String
  display_name : String
  best_score : Option ℚ
  submission_count : ℕ
  last_submission : ℤ
deriving DecidableEq, Repr

/-- The aggregate row of one `user_id` group. -/
def aggFor (lower_better : Bool) (scored : List SubmissionRec) (uid : ℕ) : AggRow :=
  let rows := scored.filter (fun s => s.user_id == uid)
  let vals := rows.filterMap (·.public_score)
  { user_id := uid
    best_score := if lower_better then vals.min? else vals.max?
    submission_count := rows.length
    last_submission := ((rows.map (·.created_at)).max?).getD 0
    first_submission := ((rows.map (·.created_at)).min?).getD 0 }

/-- The `ORDER BY` comparator: best score ascending for lower-is-better
metrics and descending otherwise, then `MIN(created_at)` ascending.  The
NULL cases are unreachable under the data-model invariant (scores populated
iff SCORED); the model puts NULL best scores last. -/
def aggLE (lower_better : Bool) (a b : AggRow) : Bool :=
  match a.best_score, b.best_score with
  | some qa, some qb =>
      (if lower_better then decide (qa < qb) else decide (qb < qa)) ||
        (qa == qb && decide (a.first_submission ≤ b.first_submission))
  | some _, none => true
  | none, some _ => false
  | none, none => decide (a.first_submission ≤ b.first_submission)

/-- The output loop `for rank, row in enumerate(rows, 1)`: the rank counter
advances on every aggregate row, but an entry is appended only when the
user record is found. -/
def buildEntries (users : List UserRow) (rank : ℕ) :
    List AggRow → List LeaderboardEntry
  | [] => []
  | g :: gs =>
      match users.find? (fun u => u.id == g.user_id) with
      | some u =>
          { rank := rank
            user_id := g.user_id
            username := u.username
            display_name := u.display_name
            best_score := g.best_score
            submission_count := g.submission_count
            last_submission := g.last_submission } :: buildEntries users (rank + 1) gs
      | none => buildEntries users (rank + 1) gs

/-- `get_leaderboard`: see the section comment.  `List.mergeSort` models the
`ORDER BY` (any order consistent with the comparator is sound; the sorted
theorems below hold for all of them). -/
def get_leaderboard (metric : String) (competition_id : ℕ)
    (subs : List SubmissionRec) (users : List UserRow) (limit : ℕ := 100) :
    List LeaderboardEntry :=
  let lower_better := is_lower_better metric
  let scored := subs.filter
    (fun s => s.competition_id == competition_id && s.status == SubmissionStatus.scored)
  let uids := (scored.map (·.user_id)).dedup
  let aggs := uids.map (aggFor lower_better scored)
  let ranked := (aggs.mergeSort (aggLE lower_better)).take limit
  buildEntries users 1 ranked

/-! ## Asynchronous scoring task
(`src/backend/src/infrastructure/tasks/scoring.py`) -/

/-- `True` iff `pat` occurs at the start of `s` (`str.startswith`). -/
def strStartsWith (s pat : String) : Bool := pat.toList.isPrefixOf s.toList

/-- The characters after the last occurrence of `pat`, if `pat` occurs
(`s.split(pat)[-1]` when `len(parts) > 1`). -/
def afterLastMarker (pat : List Char) : List Char → Option (List Char)
  | [] => none
  | x :: xs =>
      match afterLastMarker pat xs with
      | some r => some r
      | none =>
          if pat.isPrefixOf (x :: xs) then some ((x :: xs).drop pat.length) else none

/-- The storage-key extraction of `_score_submission_async`: strip the
bucket from `s3://bucket/key` URIs, recover `submissions/...` from absolute
local paths, and pass anything else through. -/
def extract_key (file_path : String) : String :=
  if strStartsWith file_path "s3://" then
    String.mk (List.intercalate ['/'] ((splitOnChar '/' file_path.toList).drop 3))
  else if strStartsWith file_path "/" then
    match afterLastMarker "/submissions/".toList file_path.toList with
    | some rest => "submissions/" ++ String.mk rest
    | none => file_path
  else file_path

/-- The dict returned by `_score_submission_async` (the `already_scored`
return has no `error` key, modelled as `none`). -/
structure TaskRet where
  submission_id : ℕ
  status : String
  score : Option ℚ := none
  error : Option String := none
deriving DecidableEq, Repr

/-- The `try:` block of `_score_submission_async`, started after the
PROCESSING state was persisted: competition lookup (a missing competition
raises), storage load (`load` is the storage-backend oracle), scorer
creation, then either mock scoring or `scorer.score` (the `runScorer`
oracle; its `.error` stands for a raised exception).  The value returned is
the terminal submission record the block persists; `.error e` is the raised
exception caught by the `except` clause. -/
def tryBody (getCompetition : ℕ → Option CompetitionRec)
    (load : String → Except String String)
    (runScorer : ScorerCfg → String → Except String ScoringResult)
    (randPub randPriv : ℚ) (now : ℤ)
    (submission : SubmissionRec) : Except String SubmissionRec :=
  match getCompetition submission.competition_id with
  | none => .error ("Competition " ++ toString submission.competition_id ++ " not found")
  | some competition =>
      match load (extract_key submission.file_path) with
      | .error e => .error e
      | .ok content =>
          match create_scorer_for_competition competition with
          | none => .ok (mock_score randPub randPriv now submission)
          | some scorer =>
              match runScorer scorer content with
              | .error e => .error e
              | .ok result =>
                  if result.success then
                    .ok { submission with
                            status := .scored
                            public_score := result.score
                            private_score := result.score
                            scored_at := some now }
                  else
                    .ok { submission with
                            status := .failed
                            error_message := result.error_message }

/-- `_score_submission_async(submission_id)`.  `lookup` is the repository's
answer for the submission id.  The first component of the result is the
final persisted state of the submission row (`none` when the function never
wrote: submission missing, or the idempotency early-return).  The second
component is the returned dict, or `.error e` for an exception propagating
out of the function (after the `except` clause persisted FAILED). -/
def score_submission_async (getCompetition : ℕ → Option CompetitionRec)
    (load : String → Except String String)
    (runScorer : ScorerCfg → String → Except String ScoringResult)
    (randPub randPriv : ℚ) (now : ℤ)
    (lookup : Option SubmissionRec) (submission_id : ℕ) :
    Option SubmissionRec × Except String TaskRet :=
  match lookup with
  | none => (none, .error ("Submission " ++ toString submission_id ++ " not found"))
  | some submission =>
      if submission.status = .scored then
        (none, .ok { submission_id := submission_id
                     status := "already_scored"
                     score := submission.public_score })
      else
        let processing := { submission with status := SubmissionStatus.processing }
        match tryBody getCompetition load runScorer randPub randPriv now processing with
        | .ok final =>
            (some final,
             .ok { submission_id := submission_id
                   status := final.status.value
                   score := final.public_score
                   error := final.error_message })
        | .error e =>
            (some { processing with
                      status := .failed
                      error_message := some ("Scoring error: " ++ e) },
             .error e)

/-! ## Concrete fixtures used by witnesses and counterexamples -/

/-- A competition with a solution file and the `rmse` metric. -/
def compRmse : CompetitionRec :=
  { id := 1, evaluation_metric := "rmse", solution_path := some "solutions/1.csv" }

/-- A competition with no solution file (mock-scoring path). -/
def compNoSolution : CompetitionRec :=
  { id := 2, evaluation_metric := "accuracy" }

/-- A freshly uploaded pending submission. -/
def subPending : SubmissionRec :=
  { id := 7, competition_id := 1, user_id := 3, file_path := "submissions/1/3/a.csv" }

/-- An already-scored submission. -/
def subScored : SubmissionRec :=
  { id := 8, competition_id := 1, user_id := 3, file_path := "submissions/1/3/b.csv",
    status := .scored, public_score := some (17/20), private_score := some (17/20),
    scored_at := some 11 }

/-- A failed submission (terminal state per the spec). -/
def subFailed : SubmissionRec :=
  { id := 9, competition_id := 2, user_id := 4, file_path := "submissions/2/4/c.csv",
    status := .failed, error_message := some "Scoring error: old" }

/-- Competition lookup fixture. -/
def lookupComp : ℕ → Option CompetitionRec :=
  fun n => if n = 1 then some compRmse else if n = 2 then some compNoSolution else none

/-- Storage-load fixture that always succeeds. -/
def loadOk : String → Except String String :=
  fun _ => .ok "id,prediction\n1,0.5"

/-- Scorer oracle fixture returning a successful score. -/
def runScorerOk : ScorerCfg → String → Except String ScoringResult :=
  fun _ _ => .ok { success := true, score := some (17/20) }

/-- Scorer oracle fixture that raises. -/
def runScorerRaise : ScorerCfg → String → Except String ScoringResult :=
  fun _ _ => .error "boom"

/-- The `ScorerCfg` that `create_scorer_for_competition` assembles for
`compRmse`. -/
def cfgRmse : ScorerCfg :=
  { solution_path := "solutions/1.csv", metric := "rmse", value_type := "float" }

/-- The CSV `id,prediction\n1,0.5\n1,0.7` of spec scenario 3 (duplicate
id). -/
def csvDup : Csv :=
  ⟨["id", "prediction"],
   [[("id", "1"), ("prediction", "0.5")], [("id", "1"), ("prediction", "0.7")]]⟩

/-- A CSV whose header misses the required id column. -/
def csvMissingCol : Csv :=
  ⟨["idx", "prediction"], [[("idx", "1"), ("prediction", "0.5")]]⟩

/-- A scored submission of user 1 (earlier submitter). -/
def subA : SubmissionRec :=
  { id := 1, competition_id := 5, user_id := 1, status := .scored,
    public_score := some (17/20), created_at := 100 }

/-- A scored submission of user 2 with the same score (later submitter). -/
def subB : SubmissionRec :=
  { id := 2, competition_id := 5, user_id := 2, status := .scored,
    public_score := some (17/20), created_at := 200 }

/-- User record fixtures for the leaderboard. -/
def userA : UserRow := { id := 1, username := "alice", display_name := "Alice" }

/-- Second user record fixture. -/
def userB : UserRow := { id := 2, username := "bob", display_name := "Bob" }

/-! ## Specification-side definitions

These restate parts of the spec's own wording, for comparison against the
definitions above that were translated from the source. -/

/-- The accumulator of §4.2's rank-statistic description: scan the sorted
pairs keeping a running count of positives seen; for each negative
encountered add the running positive count. -/
def aucSpecAccum (pos_seen : ℕ) (acc : ℚ) : List (ℚ × ℚ) → ℚ
  | [] => acc
  | (_, a) :: rest =>
      if a = 1 then aucSpecAccum (pos_seen + 1) acc rest
      else aucSpecAccum pos_seen (acc + (pos_seen : ℚ)) rest

/-- The spec's AUC formula before rounding: the accumulator over the stable
descending sort, divided by (positives × negatives). -/
def aucSpecRaw (predictions actuals : List ℚ) : ℚ :=
  aucSpecAccum 0 0 ((predictions.zip actuals).mergeSort predDescLE)
    / ((actuals.count 1 : ℚ) * (actuals.count 0 : ℚ))

/-- The id/value pair a row contributes to the parsed data lists: present
iff the trimmed id is non-empty and the trimmed value is non-empty and
parses — duplicate ids included. -/
def recordedPair (id_column prediction_column value_type : String) (row : Row) :
    Option (String × ℚ) :=
  let row_id := strTrim (rowGet row id_column)
  if row_id = "" then none
  else
    let pred_str := strTrim (rowGet row prediction_column)
    if pred_str = "" then none
    else (parsePred value_type pred_str).map (fun v => (row_id, v))

/-- The trimmed id of a row when non-empty (what the scan adds to
`seen_ids`). -/
def rowIdOf (id_column : String) (row : Row) : Option String :=
  let row_id := strTrim (rowGet row id_column)
  if row_id = "" then none else some row_id

/-- How many rows carry a non-empty id that already occurred (in `seen`, or
in an earlier row) — the number of DUPLICATE_ID errors the scan reports. -/
def dupCount (id_column : String) : List String → List Row → ℕ
  | _, [] => 0
  | seen, row :: rest =>
      match rowIdOf id_column row with
      | none => dupCount id_column seen rest
      | some rid =>
          (if seen.contains rid then 1 else 0) + dupCount id_column (seen ++ [rid]) rest

/-- The earliest `created_at` among a user's SCORED submissions of a
competition (the leaderboard's tie-break key); `0` when there are none. -/
def firstScoredTime (competition_id : ℕ) (subs : List SubmissionRec) (uid : ℕ) : ℤ :=
  ((((subs.filter
        (fun s => s.competition_id == competition_id
          && s.status == SubmissionStatus.scored)).filter
            (fun s => s.user_id == uid)).map (·.created_at)).min?).getD 0

/-! ## C7 — synchronous scoring converts exceptions to FAILED -/

/-- C7: in synchronous mode, an exception raised by `scorer.score` (the
`.error` case of the oracle) is caught and turned into status FAILED with
`error_message = "Scoring error: " ++ e`; `score_submission` is a total
function, so the exception never propagates to the caller and nothing else
of the submission record changes. -/
theorem sync_exception_becomes_failed
    (competition : CompetitionRec)
    (runScorer : ScorerCfg → String → Except String ScoringResult)
    (randPub randPriv : ℚ) (now : ℤ) (content : String)
    (submission : SubmissionRec) (scorer : ScorerCfg) (e : String)
    (hs : create_scorer_for_competition competition = some scorer)
    (he : runScorer scorer content = .error e) :
    score_submission competition runScorer randPub randPriv now content submission
      = { submission with
            status := .failed
            error_message := some ("Scoring error: " ++ e) } := by
  simp [score_submission, hs, he]

/-- Witness for C7 at concrete inputs. -/
theorem sync_exception_becomes_failed_witness :
    score_submission compRmse runScorerRaise 0 0 0 "id,prediction" subPending
      = { subPending with
            status := .failed
            error_message := some "Scoring error: boom" } :=
  sync_exception_becomes_failed compRmse runScorerRaise 0 0 0 "id,prediction"
    subPending cfgRmse "boom" (by decide) rfl

/-! ## C1 — idempotency guard of the scoring worker -/

/-- C1 (counterexample): the idempotency guard of
`_score_submission_async` checks only for SCORED, not for both terminal
states.  The FAILED submission `subFailed` is re-processed: a new state is
persisted and its status flips to SCORED, so a processing attempt on an
already-terminal submission is not always a no-op. -/
theorem async_reprocesses_failed_submission :
    subFailed.status = SubmissionStatus.failed
    ∧ ((score_submission_async lookupComp loadOk runScorerOk (3/5) (7/10) 5
          (some subFailed) 9).1.map (·.status) = some SubmissionStatus.scored) :=
  ⟨rfl, rfl⟩

/-- C1 (amended): only an already-SCORED submission short-circuits the
worker.  For those, a processing attempt writes nothing (no persisted
state) and returns the stored public score with status
`"already_scored"`, leaving status, scores and `error_message`
untouched. -/
theorem async_scored_submission_noop
    (getCompetition : ℕ → Option CompetitionRec)
    (load : String → Except String String)
    (runScorer : ScorerCfg → String → Except String ScoringResult)
    (randPub randPriv : ℚ) (now : ℤ)
    (submission : SubmissionRec) (sid : ℕ)
    (h : submission.status = .scored) :
    score_submission_async getCompetition load runScorer randPub randPriv now
        (some submission) sid
      = (none, .ok { submission_id := sid
                     status := "already_scored"
                     score := submission.public_score }) := by
  simp [score_submission_async, h]

/-- Witness for the amended C1 at concrete inputs. -/
theorem async_scored_submission_noop_witness :
    score_submission_async lookupComp loadOk runScorerOk (3/5) (7/10) 5
        (some subScored) 8
      = (none, .ok { submission_id := 8
                     status := "already_scored"
                     score := some (17/20) }) :=
  async_scored_submission_noop lookupComp loadOk runScorerOk (3/5) (7/10) 5
    subScored 8 rfl

/-! ## C9 — asynchronous failures are persisted as FAILED before re-raising -/

/-- Every state the `try:` block returns for persisting is terminal:
SCORED on the mock path and on scorer success, FAILED on a failure
result. -/
theorem tryBody_ok_terminal
    (getCompetition : ℕ → Option CompetitionRec)
    (load : String → Except String String)
    (runScorer : ScorerCfg → String → Except String ScoringResult)
    (randPub randPriv : ℚ) (now : ℤ)
    (submission final : SubmissionRec)
    (h : tryBody getCompetition load runScorer randPub randPriv now submission
          = .ok final) :
    final.status = .scored ∨ final.status = .failed := by
  unfold tryBody at h
  repeat' split at h
  all_goals simp_all [mock_score]
  all_goals subst h
  all_goals simp

/-- C9: when the `try:` block of an asynchronous attempt raises after the
submission was moved to PROCESSING, the worker persists FAILED with the
`"Scoring error: "`-prefixed message and then lets the exception propagate
(the `.error` second component, which triggers the Celery retry); moreover
no completed attempt ever leaves PROCESSING as the persisted final state —
every persisted final state is SCORED or FAILED. -/
theorem async_failure_persists_failed_before_reraise
    (getCompetition : ℕ → Option CompetitionRec)
    (load : String → Except String String)
    (runScorer : ScorerCfg → String → Except String ScoringResult)
    (randPub randPriv : ℚ) (now : ℤ)
    (submission : SubmissionRec) (sid : ℕ)
    (hns : submission.status ≠ .scored) :
    (∀ e, tryBody getCompetition load runScorer randPub randPriv now
            { submission with status := .processing } = .error e →
        score_submission_async getCompetition load runScorer randPub randPriv now
            (some submission) sid
          = (some { submission with
                      status := .failed
                      error_message := some ("Scoring error: " ++ e) },
             .error e))
    ∧ (∀ final,
        (score_submission_async getCompetition load runScorer randPub randPriv now
            (some submission) sid).1 = some final →
        final.status = .scored ∨ final.status = .failed) := by
  constructor
  · intro e he
    simp [score_submission_async, hns, he]
  · intro final hfinal
    simp only [score_submission_async, hns, if_neg, if_false] at hfinal
    revert hfinal
    split
    · rename_i f hok
      intro hfinal
      simp only [Option.some.injEq] at hfinal
      subst hfinal
      exact tryBody_ok_terminal _ _ _ _ _ _ _ _ hok
    · intro hfinal
      simp only [Option.some.injEq] at hfinal
      subst hfinal
      simp

/-- Witness for C9 at concrete inputs: the storage load fails, the
attempt persists FAILED and re-raises. -/
theorem async_failure_persists_failed_before_reraise_witness :
    score_submission_async lookupComp (fun _ => .error "storage down")
        runScorerOk (3/5) (7/10) 5 (some subPending) 7
      = (some { subPending with
                  status := .failed
                  error_message := some "Scoring error: storage down" },
         .error "storage down") :=
  (async_failure_persists_failed_before_reraise lookupComp
      (fun _ => .error "storage down") runScorerOk (3/5) (7/10) 5
      subPending 7 (by decide)).1 "storage down" rfl

/-! ## C10 — mock scoring when the competition has no solution file -/

/-- The rounded integer never drops below an integer lower bound of its
argument. -/
theorem le_pyRoundInt {x : ℚ} {za : ℤ} (h : (za : ℚ) ≤ x) : za ≤ pyRoundInt x := by
  have hfl : za ≤ ⌊x⌋ := Int.le_floor.mpr h
  unfold pyRoundInt
  split
  · exact hfl
  · split
    · omega
    · split
      · exact hfl
      · omega

/-- The rounded integer never exceeds an integer upper bound of its
argument. -/
theorem pyRoundInt_le {x : ℚ} {zb : ℤ} (h : x ≤ (zb : ℚ)) : pyRoundInt x ≤ zb := by
  have hfl : ⌊x⌋ ≤ zb := by
    have h2 : ⌊x⌋ ≤ ⌊(zb : ℚ)⌋ := Int.floor_le_floor h
    simpa using h2
  have hsucc : ¬ (x - (⌊x⌋ : ℚ) < 1/2) → ⌊x⌋ + 1 ≤ zb := by
    intro hr
    push_neg at hr
    have hlt : (⌊x⌋ : ℚ) < x := by linarith
    have hlt2 : (⌊x⌋ : ℚ) < (zb : ℚ) := lt_of_lt_of_le hlt h
    have : ⌊x⌋ < zb := by exact_mod_cast hlt2
    omega
  unfold pyRoundInt
  split
  · exact hfl
  · rename_i hr
    split
    · exact hsucc hr
    · split
      · exact hfl
      · exact hsucc hr

/-- `pyRound` stays inside any interval whose endpoints are exact
`ndigits`-decimal values. -/
theorem pyRound_mem_Icc {a b x : ℚ} {za zb : ℤ} {n : ℕ}
    (hza : (za : ℚ) = a * 10 ^ n) (hzb : (zb : ℚ) = b * 10 ^ n)
    (hax : a ≤ x) (hxb : x ≤ b) :
    a ≤ pyRound x n ∧ pyRound x n ≤ b := by
  have hm : (0:ℚ) < (10:ℚ) ^ n := by positivity
  have h1 : za ≤ pyRoundInt (x * 10 ^ n) :=
    le_pyRoundInt (hza ▸ by gcongr)
  have h2 : pyRoundInt (x * 10 ^ n) ≤ zb :=
    pyRoundInt_le (hzb ▸ by gcongr)
  constructor
  · have hle : (za : ℚ) / 10 ^ n ≤ (pyRoundInt (x * 10 ^ n) : ℚ) / 10 ^ n := by
      gcongr
    calc a = (za : ℚ) / 10 ^ n := by rw [hza]; field_simp
      _ ≤ pyRound x n := hle
  · have hle : (pyRoundInt (x * 10 ^ n) : ℚ) / 10 ^ n ≤ (zb : ℚ) / 10 ^ n := by
      gcongr
    calc pyRound x n ≤ (zb : ℚ) / 10 ^ n := hle
      _ = b := by rw [hzb]; field_simp

unseal Rat.mul Rat.inv Rat.add Rat.sub in
/-- Two draws in range whose 4-digit roundings differ. -/
theorem pyRound_four_digits_ne : pyRound ((3:ℚ)/5) 4 ≠ pyRound ((7:ℚ)/10) 4 := by
  decide

/-- C10: with no solution file on the competition record,
`create_scorer_for_competition` yields `None` and the pipeline mock-scores:
the submission is marked SCORED with `public_score`/`private_score` the
4-digit roundings of the two independent uniform draws from `[0.5, 0.95]`;
the result is independent of the uploaded content; the recorded scores stay
in `[0.5, 0.95]`; and the two scores can differ. -/
theorem missing_solution_mock_scoring
    (competition : CompetitionRec)
    (h : competition.solution_path = none ∨ competition.solution_path = some "") :
    create_scorer_for_competition competition = none
    ∧ (∀ (runScorer : ScorerCfg → String → Except String ScoringResult)
          (randPub randPriv : ℚ) (now : ℤ) (content content' : String)
          (submission : SubmissionRec),
        score_submission competition runScorer randPub randPriv now content submission
          = score_submission competition runScorer randPub randPriv now content' submission)
    ∧ (∀ (runScorer : ScorerCfg → String → Except String ScoringResult)
          (randPub randPriv : ℚ) (now : ℤ) (content : String)
          (submission : SubmissionRec),
        score_submission competition runScorer randPub randPriv now content submission
          = { submission with
                status := .scored
                public_score := some (pyRound randPub 4)
                private_score := some (pyRound randPriv 4)
                scored_at := some now })
    ∧ (∀ r : ℚ, 1/2 ≤ r → r ≤ 19/20 → 1/2 ≤ pyRound r 4 ∧ pyRound r 4 ≤ 19/20)
    ∧ (∃ r1 r2 : ℚ, 1/2 ≤ r1 ∧ r1 ≤ 19/20 ∧ 1/2 ≤ r2 ∧ r2 ≤ 19/20
        ∧ pyRound r1 4 ≠ pyRound r2 4) := by
  have hnone : create_scorer_for_competition competition = none := by
    rcases h with h | h <;> simp [create_scorer_for_competition, pyOrStr, h]
  refine ⟨hnone, ?_, ?_, ?_, ?_⟩
  · intro rs rp rv now c c' sub
    simp [score_submission, hnone]
  · intro rs rp rv now c sub
    simp [score_submission, hnone, mock_score]
  · intro r h1 h2
    exact @pyRound_mem_Icc (1/2) (19/20) r 5000 9500 4 (by norm_num) (by norm_num) h1 h2
  · exact ⟨3/5, 7/10, by norm_num, by norm_num, by norm_num, by norm_num,
      pyRound_four_digits_ne⟩

/-- Witness for C10 at concrete inputs. -/
theorem missing_solution_mock_scoring_witness :
    create_scorer_for_competition compNoSolution = none
    ∧ score_submission compNoSolution runScorerRaise (3/5) (7/10) 5 "any" subPending
        = { subPending with
              status := .scored
              public_score := some (pyRound (3/5) 4)
              private_score := some (pyRound (7/10) 4)
              scored_at := some 5 }
    ∧ (1/2 ≤ pyRound ((3:ℚ)/5) 4 ∧ pyRound ((3:ℚ)/5) 4 ≤ 19/20) := by
  obtain ⟨h1, _h2, h3, h4, _h5⟩ :=
    missing_solution_mock_scoring compNoSolution (Or.inl rfl)
  exact ⟨h1, h3 _ _ _ _ _ _, h4 (3/5) (by norm_num) (by norm_num)⟩

/-! ## C8 — AUC-ROC is invariant under positive rescaling of predictions -/

/-- The scan only reads the actuals, which a first-component map leaves
unchanged. -/
theorem aucScanGo_map_fst (f : ℚ → ℚ) : ∀ (l : List (ℚ × ℚ)) (c : ℕ) (a : ℚ),
    aucScanGo c a (l.map (Prod.map f id)) = aucScanGo c a l := by
  intro l
  induction l with
  | nil => intro c a; rfl
  | cons x xs ih =>
    intro c a
    obtain ⟨p, t⟩ := x
    by_cases ht : t = 1 <;> simp [aucScanGo, Prod.map, ht, ih]

/-- C8: multiplying every prediction by a positive constant `c` leaves
`calculate_auc_roc` unchanged — the sort comparator only compares
predictions, and positive scaling preserves every comparison, ties
included, so the stable sort and hence the scan and the rounded quotient
are identical.  Error cases agree as well, as the guards read only lengths
and actuals. -/
theorem auc_roc_scale_invariant (predictions actuals : List ℚ) (c : ℚ)
    (hc : 0 < c) :
    calculate_auc_roc (predictions.map (fun p => c * p)) actuals
      = calculate_auc_roc predictions actuals := by
  have hzip : (predictions.map (fun p => c * p)).zip actuals
      = (predictions.zip actuals).map (Prod.map (fun p => c * p) id) := by
    rw [List.zip_map_left]
  have hsort : ((predictions.zip actuals).mergeSort predDescLE).map
        (Prod.map (fun p => c * p) id)
      = (((predictions.zip actuals).map
          (Prod.map (fun p => c * p) id)).mergeSort predDescLE) := by
    apply List.map_mergeSort
    intro a _ b _
    simp only [predDescLE, Prod.map, id]
    exact decide_eq_decide.mpr (mul_le_mul_left hc).symm
  unfold calculate_auc_roc
  simp only [List.length_map]
  rw [hzip, ← hsort, aucScanGo_map_fst]

/-- Witness for C8 at concrete inputs (scaling by 3). -/
theorem auc_roc_scale_invariant_witness :
    calculate_auc_roc ([9/10, 8/10, 2/10, 1/10].map (fun p => 3 * p)) [1, 1, 0, 0]
      = calculate_auc_roc [9/10, 8/10, 2/10, 1/10] [1, 1, 0, 0] :=
  auc_roc_scale_invariant [9/10, 8/10, 2/10, 1/10] [1, 1, 0, 0] 3 (by norm_num)

/-! ## C3 — the AUC-ROC rank-statistic formula -/

/-- The spec-side accumulator coincides with the source's scan loop. -/
theorem aucSpecAccum_eq_scan : ∀ (l : List (ℚ × ℚ)) (c : ℕ) (a : ℚ),
    aucSpecAccum c a l = aucScanGo c a l := by
  intro l
  induction l with
  | nil => intro c a; rfl
  | cons x xs ih =>
    intro c a
    obtain ⟨p, t⟩ := x
    by_cases ht : t = 1 <;> simp [aucSpecAccum, aucScanGo, ht, ih]

/-- For 0/1 actuals, `sum(actuals)` counts the positives. -/
theorem sum_eq_count_one : ∀ {l : List ℚ}, (∀ a ∈ l, a = 0 ∨ a = 1) →
    l.sum = (l.count 1 : ℚ) := by
  intro l
  induction l with
  | nil => simp
  | cons x xs ih =>
    intro h
    have hx := h x (by simp)
    have ht := ih (fun a ha => h a (by simp [ha]))
    rcases hx with h0 | h1
    · subst h0
      simp [List.count_cons, ht]
    · subst h1
      simp [List.count_cons, ht]
      ring

/-- For 0/1 actuals, the length splits into the two class counts. -/
theorem length_eq_count_add_count : ∀ {l : List ℚ}, (∀ a ∈ l, a = 0 ∨ a = 1) →
    l.length = l.count 0 + l.count 1 := by
  intro l
  induction l with
  | nil => simp
  | cons x xs ih =>
    intro h
    have hx := h x (by simp)
    have ht := ih (fun a ha => h a (by simp [ha]))
    rcases hx with h0 | h1 <;> subst_vars <;>
      simp [List.count_cons, ht] <;> omega

/-- C3 (counterexample): the claim's raw quotient is not what the function
returns.  On predictions `[0.9, 0.8, 0.75, 0.7]` with actuals
`[1, 1, 0, 1]` the spec formula gives accumulator 2 over 3 positives × 1
negative = 2/3, but `calculate_auc_roc` returns `round(2/3, 6) = 0.666667
≠ 2/3`. -/
theorem auc_roc_returns_rounded_quotient :
    calculate_auc_roc [9/10, 8/10, 3/4, 7/10] [1, 1, 0, 1] = .ok (666667/1000000)
    ∧ aucSpecRaw [9/10, 8/10, 3/4, 7/10] [1, 1, 0, 1] = 2/3
    ∧ (666667 : ℚ)/1000000 ≠ 2/3 := by
  refine ⟨?_, ?_, by norm_num⟩
  · norm_num [calculate_auc_roc, List.mergeSort, List.splitInTwo, List.merge,
      predDescLE, aucScanGo, pyRound, pyRoundInt, Int.fract]
  · norm_num [aucSpecRaw, List.mergeSort, List.splitInTwo, List.merge,
      predDescLE, aucSpecAccum, List.count_cons]

/-- C3 (amended): for equal-length inputs with 0/1 actuals containing both
classes, `calculate_auc_roc` returns the spec's rank-statistic quotient
**rounded half-to-even to 6 decimal digits**; with a class absent it fails
with the domain error; and the two spec scenarios evaluate to 1.0 and
0.0. -/
theorem auc_roc_rank_statistic
    (predictions actuals : List ℚ)
    (hlen : predictions.length = actuals.length)
    (hbin : ∀ a ∈ actuals, a = 0 ∨ a = 1) :
    (0 < actuals.count 1 → 0 < actuals.count 0 →
        calculate_auc_roc predictions actuals
          = .ok (pyRound (aucSpecRaw predictions actuals) 6))
    ∧ (actuals ≠ [] → (actuals.count 1 = 0 ∨ actuals.count 0 = 0) →
        calculate_auc_roc predictions actuals
          = .error "AUC-ROC requires both positive and negative samples")
    ∧ calculate_auc_roc [9/10, 8/10, 2/10, 1/10] [1, 1, 0, 0] = .ok 1
    ∧ calculate_auc_roc [1/10, 2/10, 8/10, 9/10] [1, 1, 0, 0] = .ok 0 := by
  have hsum : actuals.sum = (actuals.count 1 : ℚ) := sum_eq_count_one hbin
  have hlc : actuals.length = actuals.count 0 + actuals.count 1 :=
    length_eq_count_add_count hbin
  have hdiff : (actuals.length : ℚ) - actuals.sum = (actuals.count 0 : ℚ) := by
    rw [hsum, hlc]
    push_cast
    ring
  refine ⟨?_, ?_, ?_, ?_⟩
  · intro h1 h0
    have hact0 : actuals.length ≠ 0 := by omega
    have hc1 : (actuals.count 1 : ℚ) ≠ 0 := Nat.cast_ne_zero.mpr (by omega)
    have hc0 : (actuals.count 0 : ℚ) ≠ 0 := Nat.cast_ne_zero.mpr (by omega)
    have hguard : ¬ (actuals.sum = 0 ∨ ((actuals.length : ℚ) - actuals.sum) = 0) := by
      push_neg
      exact ⟨by rw [hsum]; exact hc1, by rw [hdiff]; exact hc0⟩
    simp only [calculate_auc_roc, hlen, ne_eq, not_true_eq_false, if_false]
    unfold aucSpecRaw
    rw [if_neg hact0, if_neg hguard, hdiff, hsum, aucSpecAccum_eq_scan]
  · intro hne hcase
    have hact0 : actuals.length ≠ 0 := (List.length_pos.mpr hne).ne'
    have hguard : actuals.sum = 0 ∨ ((actuals.length : ℚ) - actuals.sum) = 0 := by
      rcases hcase with h | h
      · left
        rw [hsum, h]
        norm_num
      · right
        rw [hdiff, h]
        norm_num
    simp only [calculate_auc_roc, hlen, ne_eq, not_true_eq_false, if_false]
    rw [if_neg hact0, if_pos hguard]
  · norm_num [calculate_auc_roc, List.mergeSort, List.splitInTwo, List.merge,
      predDescLE, aucScanGo, pyRound, pyRoundInt, Int.fract]
  · norm_num [calculate_auc_roc, List.mergeSort, List.splitInTwo, List.merge,
      predDescLE, aucScanGo, pyRound, pyRoundInt, Int.fract]

/-- Witness for the amended C3 at concrete inputs. -/
theorem auc_roc_rank_statistic_witness :
    calculate_auc_roc [9/10, 8/10, 2/10, 1/10] [1, 1, 0, 0]
      = .ok (pyRound (aucSpecRaw [9/10, 8/10, 2/10, 1/10] [1, 1, 0, 0]) 6) :=
  (auc_roc_rank_statistic [9/10, 8/10, 2/10, 1/10] [1, 1, 0, 0]
      (by decide) (by decide)).1 (by decide) (by decide)

/-! ## Row-scan structure lemmas (shared by C2 and C4) -/

/-- Every branch of the row body leaves `row_count` incremented exactly
once. -/
theorem processRow_rowCount (ic pc : String) (mn mx : Option ℚ) (vt : String)
    (s : ScanState) (n : ℕ) (row : Row) :
    (processRow ic pc mn mx vt s n row).rowCount = s.rowCount + 1 := by
  simp only [processRow]
  repeat' split
  all_goals rfl

/-- The scan visits every row: the final `row_count` is the number of data
rows. -/
theorem scanRows_rowCount (ic pc : String) (mn mx : Option ℚ) (vt : String) :
    ∀ (rows : List Row) (s : ScanState) (n : ℕ),
    (scanRows ic pc mn mx vt s n rows).rowCount = s.rowCount + rows.length := by
  intro rows
  induction rows with
  | nil => intro s n; simp [scanRows]
  | cons row rest ih =>
    intro s n
    simp [scanRows, ih, processRow_rowCount]
    omega

/-- Effect of one row on the data lists, the seen set and the
DUPLICATE_ID error count. -/
theorem processRow_spec (ic pc : String) (mn mx : Option ℚ) (vt : String)
    (s : ScanState) (n : ℕ) (row : Row) :
    (processRow ic pc mn mx vt s n row).dataIds
        = s.dataIds ++ ((recordedPair ic pc vt row).map Prod.fst).toList
    ∧ (processRow ic pc mn mx vt s n row).dataVals
        = s.dataVals ++ ((recordedPair ic pc vt row).map Prod.snd).toList
    ∧ (processRow ic pc mn mx vt s n row).seen = s.seen ++ (rowIdOf ic row).toList
    ∧ (processRow ic pc mn mx vt s n row).errors.countP (fun e => e.code == "DUPLICATE_ID")
        = s.errors.countP (fun e => e.code == "DUPLICATE_ID")
          + (match rowIdOf ic row with
             | some rid => if s.seen.contains rid then 1 else 0
             | none => 0) := by
  simp only [processRow, recordedPair, rowIdOf]
  repeat' split
  all_goals simp_all [List.countP_append, List.countP_cons]

/-- A row without a usable id contributes nothing to the data lists. -/
theorem recordedPair_eq_none (ic pc vt : String) (row : Row)
    (h : rowIdOf ic row = none) : recordedPair ic pc vt row = none := by
  by_cases hid : strTrim (rowGet row ic) = ""
  · simp [recordedPair, hid]
  · simp [rowIdOf, hid] at h

/-- Cumulative effect of the scan on the data lists and the DUPLICATE_ID
error count. -/
theorem scanRows_spec (ic pc : String) (mn mx : Option ℚ) (vt : String) :
    ∀ (rows : List Row) (s : ScanState) (n : ℕ),
    (scanRows ic pc mn mx vt s n rows).dataIds
        = s.dataIds ++ rows.filterMap (fun row => (recordedPair ic pc vt row).map Prod.fst)
    ∧ (scanRows ic pc mn mx vt s n rows).dataVals
        = s.dataVals ++ rows.filterMap (fun row => (recordedPair ic pc vt row).map Prod.snd)
    ∧ (scanRows ic pc mn mx vt s n rows).errors.countP (fun e => e.code == "DUPLICATE_ID")
        = s.errors.countP (fun e => e.code == "DUPLICATE_ID") + dupCount ic s.seen rows := by
  intro rows
  induction rows with
  | nil => intro s n; simp [scanRows, dupCount]
  | cons row rest ih =>
    intro s n
    obtain ⟨h1, h2, h3, h4⟩ := processRow_spec ic pc mn mx vt s n row
    obtain ⟨g1, g2, g3⟩ := ih (processRow ic pc mn mx vt s n row) (n + 1)
    cases hr : rowIdOf ic row with
    | none =>
      have hp := recordedPair_eq_none ic pc vt row hr
      rw [hr] at h3 h4
      simp_all [scanRows, dupCount, List.filterMap_cons]
    | some rid =>
      rw [hr] at h3 h4
      cases hp : recordedPair ic pc vt row with
      | none =>
        rw [hp] at h1 h2
        simp_all [scanRows, dupCount, List.filterMap_cons]
        omega
      | some p =>
        rw [hp] at h1 h2
        simp_all [scanRows, dupCount, List.filterMap_cons]
        omega

/-- Id-set mismatch errors are never DUPLICATE_ID. -/
theorem countP_setIdErrors_dup (ic : String) (eids : Option (List String))
    (seen : List String) :
    (setIdErrors ic eids seen).countP (fun e => e.code == "DUPLICATE_ID") = 0 := by
  rw [List.countP_eq_zero]
  intro e he
  cases eids with
  | none => simp [setIdErrors] at he
  | some expected =>
    simp only [setIdErrors, List.mem_append] at he
    rcases he with he | he <;> (revert he; split <;> intro he <;> simp_all)

/-- The EMPTY_FILE error is never DUPLICATE_ID. -/
theorem countP_emptyFileErrors_dup (rc : ℕ) :
    (emptyFileErrors rc).countP (fun e => e.code == "DUPLICATE_ID") = 0 := by
  unfold emptyFileErrors
  split <;> simp

/-! ## C2 — duplicate ids are reported, and re-recorded after all -/

unseal Rat.mul Rat.inv Rat.add Rat.sub in
/-- C2 (counterexample): on `id,prediction\n1,0.5\n1,0.7` the duplicate
row IS appended to the parsed data lists — `data` ends up `["1", "1"]` /
`[0.5, 0.7]` — while a DUPLICATE_ID error for row 3 is reported.  The
`DUPLICATE_ID` branch of the source has no `continue`, so the claim's
"without appending the later occurrence" is false. -/
theorem duplicate_row_value_rerecorded :
    (validate_submission csvDup).dataIds = ["1", "1"]
    ∧ (validate_submission csvDup).dataVals = [1/2, 7/10]
    ∧ (validate_submission csvDup).errors
        = [⟨"DUPLICATE_ID", "Duplicate ID: 1", some "id", some 3⟩] := by
  decide

/-- C2 (amended): validation records the first occurrence's value, reports
each later occurrence of an already-seen id as a DUPLICATE_ID error, and
also appends the later occurrence's id and value to the parsed data lists:
the data lists consist of every row with a non-empty id and a parseable
non-empty value, duplicates included, and the number of DUPLICATE_ID
errors equals the number of rows whose non-empty id already occurred
earlier. -/
theorem duplicates_recorded_and_reported
    (csv : Csv) (ic pc : String) (eids : Option (List String))
    (mn mx : Option ℚ) (vt : String)
    (h1 : csv.headers.contains ic = true) (h2 : csv.headers.contains pc = true) :
    (validate_submission csv ic pc eids mn mx vt).dataIds
        = csv.rows.filterMap (fun row => (recordedPair ic pc vt row).map Prod.fst)
    ∧ (validate_submission csv ic pc eids mn mx vt).dataVals
        = csv.rows.filterMap (fun row => (recordedPair ic pc vt row).map Prod.snd)
    ∧ ((validate_submission csv ic pc eids mn mx vt).errors.countP
          (fun e => e.code == "DUPLICATE_ID")) = dupCount ic [] csv.rows := by
  obtain ⟨g1, g2, g3⟩ := scanRows_spec ic pc mn mx vt csv.rows {} 2
  simp only [validate_submission, h1, h2, if_true, List.nil_append, List.isEmpty_nil]
  refine ⟨by simpa using g1, by simpa using g2, ?_⟩
  rw [List.countP_append, List.countP_append, countP_setIdErrors_dup,
    countP_emptyFileErrors_dup]
  simpa using g3

/-- Witness for the amended C2 at the duplicate-id CSV. -/
theorem duplicates_recorded_and_reported_witness :
    (validate_submission csvDup "id" "prediction" none none none "float").dataIds
        = csvDup.rows.filterMap
            (fun row => (recordedPair "id" "prediction" "float" row).map Prod.fst)
    ∧ (validate_submission csvDup "id" "prediction" none none none "float").dataVals
        = csvDup.rows.filterMap
            (fun row => (recordedPair "id" "prediction" "float" row).map Prod.snd)
    ∧ ((validate_submission csvDup "id" "prediction" none none none "float").errors.countP
          (fun e => e.code == "DUPLICATE_ID")) = dupCount "id" [] csvDup.rows :=
  duplicates_recorded_and_reported csvDup "id" "prediction" none none none "float"
    (by decide) (by decide)

/-! ## C4 — schema fail-fast, single-pass collection, valid iff no errors -/

/-- C4: with a required column absent, validation returns immediately with
exactly the MISSING_COLUMN error(s) — no row, id-set or EMPTY_FILE errors
— and empty data and zero row count; otherwise every row is scanned
(`row_count` equals the number of rows, with no early return), and the
result is valid iff the accumulated error list is empty. -/
theorem header_fail_fast_and_single_pass
    (csv : Csv) (ic pc : String) (eids : Option (List String))
    (mn mx : Option ℚ) (vt : String) :
    (¬ (csv.headers.contains ic = true ∧ csv.headers.contains pc = true) →
        (validate_submission csv ic pc eids mn mx vt).valid = false
        ∧ (validate_submission csv ic pc eids mn mx vt).errors
            = (if csv.headers.contains ic then [] else [missingColumnError ic])
              ++ (if csv.headers.contains pc then [] else [missingColumnError pc])
        ∧ (∀ e ∈ (validate_submission csv ic pc eids mn mx vt).errors,
            e.code = "MISSING_COLUMN")
        ∧ (validate_submission csv ic pc eids mn mx vt).dataIds = []
        ∧ (validate_submission csv ic pc eids mn mx vt).dataVals = []
        ∧ (validate_submission csv ic pc eids mn mx vt).row_count = 0)
    ∧ (csv.headers.contains ic = true → csv.headers.contains pc = true →
        (validate_submission csv ic pc eids mn mx vt).row_count = csv.rows.length
        ∧ ((validate_submission csv ic pc eids mn mx vt).valid = true
            ↔ (validate_submission csv ic pc eids mn mx vt).errors = [])) := by
  constructor
  · intro h
    by_cases hic : csv.headers.contains ic = true <;>
      by_cases hpc : csv.headers.contains pc = true
    · exact absurd ⟨hic, hpc⟩ h
    all_goals simp_all [validate_submission, missingColumnError]
  · intro hic hpc
    simp only [validate_submission, hic, hpc, if_true, List.nil_append,
      List.isEmpty_nil]
    constructor
    · simpa using scanRows_rowCount ic pc mn mx vt csv.rows {} 2
    · simp [List.isEmpty_iff]

/-- Witness for C4: a missing id column fails fast; the duplicate-id CSV
is scanned end to end. -/
theorem header_fail_fast_and_single_pass_witness :
    (validate_submission csvMissingCol "id" "prediction" none none none "float").valid
        = false
    ∧ (validate_submission csvDup "id" "prediction" none none none "float").row_count
        = csvDup.rows.length := by
  refine ⟨((header_fail_fast_and_single_pass csvMissingCol "id" "prediction"
      none none none "float").1 (by decide)).1, ?_⟩
  exact ((header_fail_fast_and_single_pass csvDup "id" "prediction"
      none none none "float").2 (by decide) (by decide)).1

/-! ## Leaderboard ordering and ranks (C5, C6) -/

/-- Lexicographic transitivity for (score asc, time asc). -/
theorem lexQ_trans {qa qb qc : ℚ} {fa fb fc : ℤ}
    (h1 : qa < qb ∨ (qa = qb ∧ fa ≤ fb)) (h2 : qb < qc ∨ (qb = qc ∧ fb ≤ fc)) :
    qa < qc ∨ (qa = qc ∧ fa ≤ fc) := by
  rcases h1 with h | ⟨e, f⟩ <;> rcases h2 with h' | ⟨e', f'⟩
  · exact Or.inl (by linarith)
  · exact Or.inl (by linarith)
  · exact Or.inl (by linarith)
  · exact Or.inr ⟨by linarith, le_trans f f'⟩

/-- Lexicographic transitivity for (score desc, time asc). -/
theorem lexQ_trans_rev {qa qb qc : ℚ} {fa fb fc : ℤ}
    (h1 : qb < qa ∨ (qa = qb ∧ fa ≤ fb)) (h2 : qc < qb ∨ (qb = qc ∧ fb ≤ fc)) :
    qc < qa ∨ (qa = qc ∧ fa ≤ fc) := by
  rcases h1 with h | ⟨e, f⟩ <;> rcases h2 with h' | ⟨e', f'⟩
  · exact Or.inl (by linarith)
  · exact Or.inl (by linarith)
  · exact Or.inl (by linarith)
  · exact Or.inr ⟨by linarith, le_trans f f'⟩

/-- The ORDER BY comparator is transitive. -/
theorem aggLE_trans (lb : Bool) (a b c : AggRow)
    (hab : aggLE lb a b = true) (hbc : aggLE lb b c = true) : aggLE lb a c = true := by
  unfold aggLE at *
  cases ha : a.best_score <;> cases hb : b.best_score <;> cases hc : c.best_score <;>
    rw [ha, hb] at hab <;> rw [hb, hc] at hbc <;> simp_all
  · omega
  · cases lb <;> simp_all
    · exact lexQ_trans_rev (by tauto) (by tauto)
    · exact lexQ_trans (by tauto) (by tauto)
/-- The ORDER BY comparator is total. -/
theorem aggLE_total (lb : Bool) (a b : AggRow) :
    (aggLE lb a b || aggLE lb b a) = true := by
  unfold aggLE
  cases ha : a.best_score <;> cases hb : b.best_score <;> simp_all
  · omega
  · cases lb <;> simp_all
    all_goals
      rename_i qa qb
      rcases lt_trichotomy qa qb with h | h | h
      · tauto
      · have h2 := h.symm
        rcases le_total a.first_submission b.first_submission with hf | hf <;> tauto
      · tauto
/-- Every leaderboard entry comes from an aggregate row, with the same
user id and best score. -/
theorem mem_buildEntries (users : List UserRow) :
    ∀ (gs : List AggRow) (rank : ℕ) (e : LeaderboardEntry),
    e ∈ buildEntries users rank gs →
    ∃ g ∈ gs, e.user_id = g.user_id ∧ e.best_score = g.best_score := by
  intro gs
  induction gs with
  | nil => intro rank e he; simp [buildEntries] at he
  | cons g rest ih =>
    intro rank e he
    unfold buildEntries at he
    revert he
    split
    · intro he
      rcases List.mem_cons.mp he with he | he
      · subst he; exact ⟨g, by simp, rfl, rfl⟩
      · obtain ⟨g', hg', h1, h2⟩ := ih _ _ he
        exact ⟨g', by simp [hg'], h1, h2⟩
    · intro he
      obtain ⟨g', hg', h1, h2⟩ := ih _ _ he
      exact ⟨g', by simp [hg'], h1, h2⟩

/-- Entry construction preserves any pairwise relation that depends only
on the user id and best score carried over from the aggregate rows. -/
theorem buildEntries_pairwise (users : List UserRow)
    {P : AggRow → AggRow → Prop} {R : LeaderboardEntry → LeaderboardEntry → Prop}
    (hPR : ∀ g g' (e e' : LeaderboardEntry), P g g' →
        e.user_id = g.user_id → e.best_score = g.best_score →
        e'.user_id = g'.user_id → e'.best_score = g'.best_score → R e e') :
    ∀ (gs : List AggRow) (rank : ℕ), gs.Pairwise P →
    (buildEntries users rank gs).Pairwise R := by
  intro gs
  induction gs with
  | nil => intro rank _; simp [buildEntries]
  | cons g rest ih =>
    intro rank hp
    rw [List.pairwise_cons] at hp
    obtain ⟨hg, hrest⟩ := hp
    unfold buildEntries
    split
    · rename_i u hu
      refine List.Pairwise.cons ?_ (ih _ hrest)
      intro e' he'
      obtain ⟨g', hg', h1, h2⟩ := mem_buildEntries users rest _ e' he'
      exact hPR g g' _ e' (hg g' hg') rfl rfl h1 h2
    · exact ih _ hrest

/-- When every aggregate row's user exists, the ranks are exactly
`rank, rank+1, ...`. -/
theorem buildEntries_ranks (users : List UserRow) :
    ∀ (gs : List AggRow) (rank : ℕ),
    (∀ g ∈ gs, ∃ u ∈ users, u.id = g.user_id) →
    (buildEntries users rank gs).map (·.rank) = List.range' rank gs.length := by
  intro gs
  induction gs with
  | nil => intro rank _; simp [buildEntries]
  | cons g rest ih =>
    intro rank hfk
    obtain ⟨u, hu, hid⟩ := hfk g (by simp)
    have hfound : (users.find? (fun v => v.id == g.user_id)).isSome := by
      rw [List.find?_isSome]
      exact ⟨u, hu, by simp [hid]⟩
    unfold buildEntries
    cases hf : users.find? (fun v => v.id == g.user_id) with
    | none => rw [hf] at hfound; simp at hfound
    | some v =>
      simp only [List.map_cons, List.length_cons]
      rw [ih (rank + 1) (fun g' hg' => hfk g' (by simp [hg']))]
      simp [List.range']
/-- C5: the leaderboard is sorted by best score in the metric's favorable
direction (min of the participant's scored public scores for
lower-is-better metrics, max otherwise): for every pair of entries in
order, the earlier entry's best score is never worse under the metric's
direction, and on equal best scores the participant with the earlier
first-submission time precedes the other. -/
theorem leaderboard_sorted_by_best_then_time (metric : String) (competition_id : ℕ)
    (subs : List SubmissionRec) (users : List UserRow) (limit : ℕ) :
    (get_leaderboard metric competition_id subs users limit).Pairwise
      (fun e e' => ∀ qa qb, e.best_score = some qa → e'.best_score = some qb →
        ((if is_lower_better metric then qa ≤ qb else qb ≤ qa)
          ∧ (qa = qb →
              firstScoredTime competition_id subs e.user_id
                ≤ firstScoredTime competition_id subs e'.user_id))) := by
  unfold get_leaderboard
  have hsorted := @List.sorted_mergeSort AggRow (aggLE (is_lower_better metric))
    (aggLE_trans (is_lower_better metric)) (aggLE_total (is_lower_better metric))
    (((subs.filter (fun s => s.competition_id == competition_id
        && s.status == SubmissionStatus.scored)).map (·.user_id)).dedup.map
      (aggFor (is_lower_better metric)
        (subs.filter (fun s => s.competition_id == competition_id
          && s.status == SubmissionStatus.scored))))
  have htake := hsorted.sublist (List.take_sublist limit _)
  have hmem : ∀ g ∈ ((((subs.filter (fun s => s.competition_id == competition_id
        && s.status == SubmissionStatus.scored)).map (·.user_id)).dedup.map
      (aggFor (is_lower_better metric)
        (subs.filter (fun s => s.competition_id == competition_id
          && s.status == SubmissionStatus.scored)))).mergeSort
            (aggLE (is_lower_better metric))).take limit,
      g.first_submission = firstScoredTime competition_id subs g.user_id := by
    intro g hg
    have hga : g ∈ _ := List.mem_mergeSort.mp (List.take_subset _ _ hg)
    obtain ⟨uid, huid, rfl⟩ := List.mem_map.mp hga
    rfl
  have hP : (((((subs.filter (fun s => s.competition_id == competition_id
        && s.status == SubmissionStatus.scored)).map (·.user_id)).dedup.map
      (aggFor (is_lower_better metric)
        (subs.filter (fun s => s.competition_id == competition_id
          && s.status == SubmissionStatus.scored)))).mergeSort
            (aggLE (is_lower_better metric))).take limit).Pairwise
      (fun g g' => aggLE (is_lower_better metric) g g' = true
        ∧ g.first_submission = firstScoredTime competition_id subs g.user_id
        ∧ g'.first_submission = firstScoredTime competition_id subs g'.user_id) := by
    refine List.Pairwise.imp_of_mem ?_ htake
    intro a b ha hb hab
    exact ⟨hab, hmem a ha, hmem b hb⟩
  apply buildEntries_pairwise users ?_ _ 1 hP
  intro g g' e e' hP' he1 he2 he1' he2'
  intro qa qb hqa hqb
  obtain ⟨hle, hg, hg'⟩ := hP'
  have hga : g.best_score = some qa := he2 ▸ hqa
  have hgb : g'.best_score = some qb := he2' ▸ hqb
  rw [he1, he1', ← hg, ← hg']
  unfold aggLE at hle
  rw [hga, hgb] at hle
  cases hlb : is_lower_better metric
  · rw [hlb] at hle
    simp only [Bool.or_eq_true, Bool.and_eq_true, decide_eq_true_eq, beq_iff_eq,
      Bool.false_eq_true, if_false] at hle
    simp only [hlb, Bool.false_eq_true, if_false]
    constructor
    · rcases hle with h | ⟨h, _⟩
      · exact le_of_lt h
      · exact le_of_eq h.symm
    · intro heq
      rcases hle with h | ⟨_, hf⟩
      · exact absurd h (by rw [heq]; exact lt_irrefl _)
      · exact hf
  · rw [hlb] at hle
    simp only [Bool.or_eq_true, Bool.and_eq_true, decide_eq_true_eq, beq_iff_eq,
      if_true] at hle
    simp only [hlb, if_true]
    constructor
    · rcases hle with h | ⟨h, _⟩
      · exact le_of_lt h
      · exact le_of_eq h
    · intro heq
      rcases hle with h | ⟨_, hf⟩
      · exact absurd h (by rw [heq]; exact lt_irrefl _)
      · exact hf
/-- Unfolding equation of `get_leaderboard`. -/
theorem get_leaderboard_eq (metric : String) (competition_id : ℕ)
    (subs : List SubmissionRec) (users : List UserRow) (limit : ℕ) :
    get_leaderboard metric competition_id subs users limit
      = buildEntries users 1
          (((((subs.filter (fun s => s.competition_id == competition_id
              && s.status == SubmissionStatus.scored)).map (·.user_id)).dedup.map
            (aggFor (is_lower_better metric)
              (subs.filter (fun s => s.competition_id == competition_id
                && s.status == SubmissionStatus.scored)))).mergeSort
                  (aggLE (is_lower_better metric))).take limit) := rfl

/-- Rank list of the built entries, stated against its own length. -/
theorem buildEntries_ranks_self (users : List UserRow) (gs : List AggRow)
    (h : ∀ g ∈ gs, ∃ u ∈ users, u.id = g.user_id) :
    (buildEntries users 1 gs).map (·.rank)
      = List.range' 1 (buildEntries users 1 gs).length := by
  have hr := buildEntries_ranks users gs 1 h
  have hlen : (buildEntries users 1 gs).length = gs.length := by
    have hmap := congrArg List.length hr
    simpa using hmap
  rw [hr, hlen]

/-- C6: under referential integrity (every scored submission's user
exists), leaderboard ranks are exactly `1, 2, ..., n` — contiguous,
strictly increasing, no gaps or shared ranks; every entry belongs to a
participant with at least one SCORED submission of this competition; and
with no scored submissions the result is the empty list. -/
theorem leaderboard_ranks_contiguous (metric : String) (competition_id : ℕ)
    (subs : List SubmissionRec) (users : List UserRow) (limit : ℕ)
    (hfk : ∀ s ∈ subs, s.competition_id = competition_id →
        s.status = SubmissionStatus.scored → ∃ u ∈ users, u.id = s.user_id) :
    ((get_leaderboard metric competition_id subs users limit).map (·.rank)
        = List.range' 1 (get_leaderboard metric competition_id subs users limit).length)
    ∧ (∀ e ∈ get_leaderboard metric competition_id subs users limit,
        ∃ s ∈ subs, s.user_id = e.user_id ∧ s.competition_id = competition_id
          ∧ s.status = SubmissionStatus.scored)
    ∧ ((∀ s ∈ subs, ¬ (s.competition_id = competition_id
          ∧ s.status = SubmissionStatus.scored)) →
        get_leaderboard metric competition_id subs users limit = []) := by
  have huid : ∀ g ∈ ((((subs.filter (fun s => s.competition_id == competition_id
        && s.status == SubmissionStatus.scored)).map (·.user_id)).dedup.map
      (aggFor (is_lower_better metric)
        (subs.filter (fun s => s.competition_id == competition_id
          && s.status == SubmissionStatus.scored)))).mergeSort
            (aggLE (is_lower_better metric))).take limit,
      ∃ s ∈ subs, s.user_id = g.user_id ∧ s.competition_id = competition_id
        ∧ s.status = SubmissionStatus.scored := by
    intro g hg
    have hga : g ∈ _ := List.mem_mergeSort.mp (List.take_subset _ _ hg)
    obtain ⟨uid, huid2, rfl⟩ := List.mem_map.mp hga
    obtain ⟨s, hs, hsid⟩ := List.mem_map.mp (List.mem_dedup.mp huid2)
    obtain ⟨hsub, hcond⟩ := List.mem_filter.mp hs
    simp only [Bool.and_eq_true, beq_iff_eq] at hcond
    exact ⟨s, hsub, by simp [aggFor, hsid], hcond.1, hcond.2⟩
  rw [get_leaderboard_eq]
  refine ⟨buildEntries_ranks_self users _ ?_, ?_, ?_⟩
  · intro g hg
    obtain ⟨s, hsub, hsid, hc, hst⟩ := huid g hg
    obtain ⟨u, hu, huid3⟩ := hfk s hsub hc hst
    exact ⟨u, hu, by rw [huid3, hsid]⟩
  · intro e he
    obtain ⟨g, hg, he1, _⟩ := mem_buildEntries users _ 1 e he
    obtain ⟨s, hsub, hsid, hc, hst⟩ := huid g hg
    exact ⟨s, hsub, by rw [hsid, he1], hc, hst⟩
  · intro hempty
    have hnil : subs.filter (fun s => s.competition_id == competition_id
        && s.status == SubmissionStatus.scored) = [] := by
      rw [List.filter_eq_nil_iff]
      intro s hs
      intro hcond
      simp only [Bool.and_eq_true, beq_iff_eq] at hcond
      exact hempty s hs ⟨hcond.1, hcond.2⟩
    simp [hnil, buildEntries]

/-- Witness for C6 at concrete inputs (two scored users). -/
theorem leaderboard_ranks_contiguous_witness :
    (get_leaderboard "accuracy" 5 [subA, subB] [userA, userB] 100).map (·.rank)
      = List.range' 1
          (get_leaderboard "accuracy" 5 [subA, subB] [userA, userB] 100).length :=
  (leaderboard_ranks_contiguous "accuracy" 5 [subA, subB] [userA, userB] 100
    (by decide)).1

end Daggle

